import Mathlib

/-
Verification development for the dynamic IPAM allocator of
`kubeslice-controller` (`service/service_ipam_allocation.go`).

Shallow-embedding conventions:

* An IPv4 address (Go `net.IP`, 4-byte form) is a `Nat` below `2^32`; all
  address arithmetic that Go performs byte-wise (`incIP`: add with per-byte
  carry, dropping the carry out of the top byte) is arithmetic modulo `2^32`,
  which coincides with the Go code for 4-byte IPs and non-negative increments
  (the only increments that reach `incIP`, see `oneShl32Sub`).
* A Go `net.IPMask` produced by `net.CIDRMask(ones, 32)` is `some ones`
  (with `0 ≤ ones ≤ 32`); the `nil` mask that `CIDRMask` returns for
  out-of-range `ones` is `none`.  `Mask.Size()` returns `(0, 0)` on `nil`
  and `(ones, 32)` on a CIDR mask, so its first component is `maskOnes`.
* `net.IPNet` is the structure `IPNet`.  The `isV4` flag records whether
  `IP.To4() ≠ nil`; every value reachable from the repository's entry points
  is IPv4, but `tryMerge` tests the flag, faithfully to the source.
* Go maps keyed by strings are association lists; the source never iterates
  over a map (only keyed lookup/insert/delete), so iteration order is
  irrelevant and the association-list representation is faithful.
* `context.Context` is `GoContext`: only its cancellation flag could matter,
  and the source in fact never consults it.
* Errors (`fmt.Errorf`) are `GoResult.err` carrying the static part of the
  format string; the interpolated values are elided.
* `fmt.Printf` debug output and both mutexes are irrelevant to sequential
  behaviour and are not modelled.
* `net.ParseCIDR` on the slice-subnet string is abstracted in
  `initializePool`: callers pass the parsed pair (address, prefix length);
  the model re-applies ParseCIDR's canonicalisation (mask the host bits)
  and its rejection of prefixes above 32.  Malformed strings correspond to
  no call of the model.
* `sort.Slice` is not stable, but on every state exercised below the network
  addresses of the sorted blocks are pairwise distinct, so every sort
  agreeing with the comparator produces the same list as the insertion sort
  used here.
-/

/-- Result of a Go call returning `(T, error)`: `ok` is a nil error. -/
inductive GoResult (α : Type) where
  | ok (val : α)
  | err (msg : String)
deriving DecidableEq, Repr

/-- Model of Go `net.IPNet`: `ip` is the 4-byte address value (below `2^32`
for every reachable value), `mask` the CIDR mask (`none` = Go `nil` mask),
`isV4` whether `IP.To4() ≠ nil`. -/
structure IPNet where
  isV4 : Bool
  ip : Nat
  mask : Option Nat
deriving DecidableEq, Repr

/-- First component of Go `Mask.Size()`: `ones` of a CIDR mask, 0 for `nil`. -/
def maskOnes : Option Nat → Nat
  | none => 0
  | some p => p

/-- Go `net.CIDRMask(ones, 32)`: `nil` when `ones` is outside `[0, 32]`. -/
def cidrMask (ones : Int) : Option Nat :=
  if 0 ≤ ones ∧ ones ≤ 32 then some ones.toNat else none

/-- Value of the Go expression `1 << uint(32-k)` (as passed to `incIP`).
For `k ≤ 32` the shift count is `32-k` and the value is `2^(32-k)`.
For `k ≥ 33` the conversion to `uint` wraps to at least `2^63`, and a Go
shift by 64 or more yields 0.  Callers only reach this expression with
`k ≥ 0` (`tryMerge`: `k` is a mask size; the split in
`allocateSubnetForPool`: `k` exceeds the mask size of the chosen block),
where this definition agrees with Go exactly. -/
def oneShl32Sub (k : Int) : Nat :=
  if k ≤ 32 then 2 ^ ((32 - k).toNat) else 0

/-- Go `incIP` on a 4-byte IP: add with per-byte carry, dropping the carry
out of the top byte, i.e. addition modulo `2^32` (increments are always
non-negative, see `oneShl32Sub`). -/
def incIP (ip inc : Nat) : Nat :=
  (ip + inc) % 2 ^ 32

/-- Go `(*net.IPNet).Contains` for 4-byte data: compare the network number
and the candidate address after masking both with the net's mask; a `nil`
mask never contains anything. -/
def ipnetContains (n : IPNet) (x : Nat) : Bool :=
  match n.mask with
  | none => false
  | some p => n.ip / 2 ^ (32 - p) == x / 2 ^ (32 - p)

/-- Go `compareIPs` restricted to the representations that occur here:
byte-wise comparison of equal-length IPs is numeric comparison; an IPv4
value sorts before a non-IPv4 one. -/
def compareIPs (a b : IPNet) : Int :=
  if a.isV4 && b.isV4 then
    (if a.ip < b.ip then -1 else if b.ip < a.ip then 1 else 0)
  else if !a.isV4 && !b.isV4 then
    (if a.ip < b.ip then -1 else if b.ip < a.ip then 1 else 0)
  else if a.isV4 then -1 else 1

/-- Go `compareIPNets`: by address, then the block with the larger
`Mask.Size()` (the smaller block) first is reversed — a smaller `ones`
sorts later. -/
def compareIPNets (a b : IPNet) : Int :=
  let c := compareIPs a b
  if c ≠ 0 then c
  else
    let bitsA := maskOnes a.mask
    let bitsB := maskOnes b.mask
    if bitsA < bitsB then 1 else if bitsB < bitsA then -1 else 0

/-- Go `tryMerge`: merge succeeds iff both IPs are IPv4, the mask sizes are
equal and at least 1, and `b`'s address equals `a`'s address plus the block
size (computed modulo `2^32` by `incIP`).  The merged block keeps `a`'s
address unchanged (the source does not mask it) with a one-smaller mask. -/
def tryMerge (a b : IPNet) : Option IPNet :=
  if !a.isV4 || !b.isV4 then none
  else
    let bitsA := maskOnes a.mask
    let bitsB := maskOnes b.mask
    if bitsA ≠ bitsB then none
    else
      let mergedBits : Int := (bitsA : Int) - 1
      if mergedBits < 0 then none
      else
        let potential : IPNet := ⟨a.isV4, a.ip, cidrMask mergedBits⟩
        let blockSize := oneShl32Sub (bitsA : Int)
        let expectedNextIP := incIP a.ip blockSize
        if expectedNextIP == b.ip then some potential else none

/-- Association-list lookup, modelling keyed access to a Go map. -/
def alookup {α : Type} : List (String × α) → String → Option α
  | [], _ => none
  | (k', v) :: rest, k => if k' = k then some v else alookup rest k

/-- Association-list update, modelling Go map assignment. -/
def ainsert {α : Type} : List (String × α) → String → α → List (String × α)
  | [], k, v => [(k, v)]
  | (k', v') :: rest, k, v =>
    if k' = k then (k, v) :: rest else (k', v') :: ainsert rest k v

/-- Association-list removal, modelling Go `delete`. -/
def aerase {α : Type} : List (String × α) → String → List (String × α)
  | [], _ => []
  | (k', v') :: rest, k => if k' = k then rest else (k', v') :: aerase rest k

/-- State of one slice's pool (`sliceIPPool`); the mutex is not modelled. -/
structure SliceIPPool where
  sliceSubnet : IPNet
  allocated : List (String × IPNet)
  freeBlocks : List IPNet
deriving DecidableEq, Repr

/-- First-fit scan of `allocateSubnetForPool`: index and value of the first
free block whose mask size is at most the requested size (the source takes
a deep copy of the block; values make the copy implicit). -/
def firstFit : List IPNet → Int → Option (Nat × IPNet)
  | [], _ => none
  | blk :: rest, req =>
    if (maskOnes blk.mask : Int) ≤ req then some (0, blk)
    else (firstFit rest req).map (fun p => (p.1 + 1, p.2))

/-- Remainder loop of `allocateSubnetForPool`
(`for i := requiredCIDRSize; i > firstFitBits+1; i--`): advance the cursor
by `1 << uint(32-i)` and emit a block of mask size `i-1` at the cursor when
the first-fit block contains it.  `fuel` is the iteration count
`(requiredCIDRSize - (firstFitBits+1)).toNat`, `i` the Go loop variable. -/
def remainderLoop (ffn : IPNet) : Nat → Int → Nat → List IPNet
  | _, _, 0 => []
  | cursor, i, fuel + 1 =>
    let c2 := incIP cursor (oneShl32Sub i)
    let rest := remainderLoop ffn c2 (i - 1) fuel
    if ipnetContains ffn c2 then ⟨ffn.isV4, c2, cidrMask (i - 1)⟩ :: rest else rest

/-- Go `(*sliceIPPool).allocateSubnetForPool`.  The source's third split
case (`firstFitBits > requiredCIDRSize`) is unreachable because the
first-fit scan guarantees `firstFitBits ≤ requiredCIDRSize`; the `else`
branch here is exactly the source's `== ` exact-fit branch. -/
def allocateSubnetForPool (pool : SliceIPPool) (clusterName : String)
    (requiredCIDRSize : Int) : GoResult (IPNet × SliceIPPool) :=
  match alookup pool.allocated clusterName with
  | some existing =>
    if (maskOnes existing.mask : Int) = requiredCIDRSize then
      .ok (existing, pool)
    else
      .err "already has subnet. Re-allocation not supported in this version."
  | none =>
    match firstFit pool.freeBlocks requiredCIDRSize with
    | none => .err "no available subnet of size in pool"
    | some (idx, ffn) =>
      let firstFitBits := maskOnes ffn.mask
      let allocRem : IPNet × List IPNet :=
        if (firstFitBits : Int) < requiredCIDRSize then
          let startIP := ffn.ip
          let alloc : IPNet := ⟨ffn.isV4, startIP, cidrMask requiredCIDRSize⟩
          let nextIP := incIP startIP (oneShl32Sub requiredCIDRSize)
          let rem0 : List IPNet :=
            if ipnetContains ffn nextIP then
              [⟨ffn.isV4, nextIP, cidrMask requiredCIDRSize⟩]
            else []
          let remRest := remainderLoop ffn nextIP requiredCIDRSize
            ((requiredCIDRSize - ((firstFitBits : Int) + 1)).toNat)
          (alloc, rem0 ++ remRest)
        else
          (⟨ffn.isV4, ffn.ip, ffn.mask⟩, [])
      let newFree :=
        pool.freeBlocks.take idx ++ allocRem.2 ++ pool.freeBlocks.drop (idx + 1)
      .ok (allocRem.1,
        { pool with
          freeBlocks := newFree
          allocated := ainsert pool.allocated clusterName allocRem.1 })

/-- Insertion step for the free-list sort (comparator `compareIPNets < 0`). -/
def insertSorted (x : IPNet) : List IPNet → List IPNet
  | [] => [x]
  | y :: rest =>
    if compareIPNets x y < 0 then x :: y :: rest else y :: insertSorted x rest

/-- Sort of `pool.FreeBlocks` in `Reclaim` (`sort.Slice` with
`compareIPNets < 0`); on pairwise-distinct addresses any conforming sort
yields this list. -/
def sortBlocks : List IPNet → List IPNet
  | [] => []
  | x :: rest => insertSorted x (sortBlocks rest)

/-- Coalesce loop body of `Reclaim`: fold `tryMerge` over the sorted list,
carrying the current block. -/
def sweepAux (current : IPNet) : List IPNet → List IPNet
  | [] => [current]
  | next :: rest =>
    match tryMerge current next with
    | some merged => sweepAux merged rest
    | none => current :: sweepAux next rest

/-- Single-pass coalesce of `Reclaim` over the sorted free list. -/
def sweep : List IPNet → List IPNet
  | [] => []
  | c :: rest => sweepAux c rest

/-- Registry state (`DynamicIPAMAllocator`); the mutex is not modelled. -/
structure Allocator where
  pools : List (String × SliceIPPool)
deriving DecidableEq, Repr

/-- Model of `context.Context` as seen by the two public operations: only
cancellation could be observed, and the source never reads it. -/
structure GoContext where
  cancelled : Bool
deriving DecidableEq, Repr

/-- Go `(*DynamicIPAMAllocator).InitializePool`.  `ipArg/prefixArg` stand
for the parsed slice-subnet string (see the header note on `ParseCIDR`):
the address is canonicalised by masking, prefixes above 32 are rejected.
The pool is registered before the VPN reservation is attempted, and a
failed reservation leaves the registered pool unchanged (the source's
allocate helper mutates nothing on its error paths). -/
def initializePool (a : Allocator) (sliceName : String) (ipArg prefixArg : Nat) :
    Allocator × GoResult Unit :=
  match alookup a.pools sliceName with
  | some _ => (a, .ok ())
  | none =>
    if 32 < prefixArg then (a, .err "invalid slice subnet CIDR")
    else
      let sliceNet : IPNet :=
        ⟨true, ipArg / 2 ^ (32 - prefixArg) * 2 ^ (32 - prefixArg), some prefixArg⟩
      let pool : SliceIPPool := ⟨sliceNet, [], [sliceNet]⟩
      match allocateSubnetForPool pool "VPN_Subnet" 24 with
      | .ok (_, pool2) => (⟨ainsert a.pools sliceName pool2⟩, .ok ())
      | .err _ =>
        (⟨ainsert a.pools sliceName pool⟩, .err "failed to reserve VPN subnet for slice")

/-- Go `(*DynamicIPAMAllocator).Allocate`.  The context argument is
received and never consulted, exactly as in the source.  The returned
`IPNet` stands for the returned `allocatedNet.String()`: the string is a
function of the value. -/
def allocate (a : Allocator) (_ctx : GoContext) (sliceName clusterName : String)
    (requiredCIDRSize : Int) : Allocator × GoResult IPNet :=
  match alookup a.pools sliceName with
  | none => (a, .err "ipam pool for slice is not initialized")
  | some pool =>
    match allocateSubnetForPool pool clusterName requiredCIDRSize with
    | .err e => (a, .err e)
    | .ok (net, pool2) => (⟨ainsert a.pools sliceName pool2⟩, .ok net)

/-- Go `(*DynamicIPAMAllocator).Reclaim`: drop the cluster's allocation,
append it to the free list, sort, and run the single coalesce sweep.  The
context argument is received and never consulted. -/
def reclaim (a : Allocator) (_ctx : GoContext) (sliceName clusterName : String) :
    Allocator × GoResult Unit :=
  match alookup a.pools sliceName with
  | none => (a, .err "ipam pool for slice is not initialized")
  | some pool =>
    match alookup pool.allocated clusterName with
    | none => (a, .err "has no allocated subnet in slice to reclaim")
    | some subnetToReclaim =>
      let sorted := sortBlocks (pool.freeBlocks ++ [subnetToReclaim])
      let pool2 : SliceIPPool :=
        { pool with
          allocated := aerase pool.allocated clusterName
          freeBlocks := sweep sorted }
      (⟨ainsert a.pools sliceName pool2⟩, .ok ())

/-- Number of addresses of a block, `2^(32 - prefix)` (prefix read off the
mask as Go's `Mask.Size()` does, so a `nil` mask gives `2^32`). -/
def blockSpan (n : IPNet) : Nat :=
  2 ^ (32 - maskOnes n.mask)

/-- Membership of an address in the contiguous range a block stands for:
`ip ≤ x < ip + 2^(32-prefix)` (the spec's reading of a CIDR block's
coverage, applied to the stored, possibly non-canonical, address). -/
def inBlock (n : IPNet) (x : Nat) : Bool :=
  decide (n.ip ≤ x ∧ x < n.ip + blockSpan n)

/-- Canonical form of the spec's data model: the low `32 - prefix` bits of
the stored address are zero. -/
def canonicalBlock (n : IPNet) : Bool :=
  decide (n.ip % blockSpan n = 0)

/-- Pool registered under slice name `s`, with a vacuous default so that
statements about concrete registries stay closed terms. -/
def poolOf (a : Allocator) (s : String) : SliceIPPool :=
  (alookup a.pools s).getD ⟨⟨true, 0, none⟩, [], []⟩

/-- Remainder sequence the specification prescribes for a split of a block
with base address `base` and prefix `b` by a request of prefix `r`, after
the leading block of prefix `r`: one block of prefix `p` at
`base + 2^(32-p)` for `p` from `r-1` down to `b+1`.  Spec-side definition,
compared against the code's remainder construction in the C6 theorem. -/
def specHighBlocks (base : Nat) : Nat → Nat → List IPNet
  | _, 0 => []
  | p, k + 1 => ⟨true, base + 2 ^ (32 - p), some p⟩ :: specHighBlocks base (p - 1) k

/-- Full remainder sequence of the specification's split policy: a block of
prefix `r` immediately after the allocated block, then the doubling blocks
of `specHighBlocks`. -/
def specRemainders (base r b : Nat) : List IPNet :=
  ⟨true, base + 2 ^ (32 - r), some r⟩ :: specHighBlocks base (r - 1) (r - 1 - b)

/-- A live (non-cancelled) context. -/
def ctxLive : GoContext := ⟨false⟩

/-- A context that is already cancelled at entry. -/
def ctxCancelled : GoContext := ⟨true⟩

/-- Address 10.0.0.0, the base of the example slice subnet 10.0.0.0/22. -/
def ipBase : Nat := 167772160

/-- Empty registry (`NewDynamicIPAMAllocator`). -/
def regA0 : Allocator := ⟨[]⟩

/-- State after `InitializePool("s", "10.0.0.0/22")`. -/
def regA1 : Allocator := (initializePool regA0 "s" ipBase 22).1

/-- State after `Allocate(ctx, "s", "c1", 24)`. -/
def regA2 : Allocator := (allocate regA1 ctxLive "s" "c1" 24).1

/-- State after `Allocate(ctx, "s", "c2", 25)`. -/
def regA3 : Allocator := (allocate regA2 ctxLive "s" "c2" 25).1

/-- State after `Allocate(ctx, "s", "c3", 25)`. -/
def regA4 : Allocator := (allocate regA3 ctxLive "s" "c3" 25).1

/-- State after `Allocate(ctx, "s", "c4", 24)`. -/
def regA5 : Allocator := (allocate regA4 ctxLive "s" "c4" 24).1

/-- State after `Reclaim(ctx, "s", "c1")`. -/
def regA6 : Allocator := (reclaim regA5 ctxLive "s" "c1").1

/-- State after `Reclaim(ctx, "s", "c3")`. -/
def regA7 : Allocator := (reclaim regA6 ctxLive "s" "c3").1

/-- State after `Reclaim(ctx, "s", "c2")`: the sweep merges the two /25
halves of 10.0.2.0/24 but has already emitted 10.0.1.0/24, leaving two
adjacent /24 free blocks. -/
def regA8 : Allocator := (reclaim regA7 ctxLive "s" "c2").1

/-- State after `Reclaim(ctx, "s", "c4")`: the sweep merges the two
adjacent, non-sibling /24 blocks into a non-canonical 10.0.1.0/23. -/
def regA9 : Allocator := (reclaim regA8 ctxLive "s" "c4").1

/-- State after `Allocate(ctx, "s", "c5", 24)`: the split of the
non-canonical free /23 drops its upper half, losing 10.0.2.0-10.0.2.255. -/
def regA10 : Allocator := (allocate regA9 ctxLive "s" "c5" 24).1

theorem alookup_ainsert_self {α : Type} (m : List (String × α)) (k : String) (v : α) :
    alookup (ainsert m k v) k = some v := by
  induction m with
  | nil => simp [ainsert, alookup]
  | cons hd tl ih =>
    obtain ⟨k', v'⟩ := hd
    by_cases h : k' = k <;> simp [ainsert, alookup, h, ih]

theorem ainsert_ainsert_self {α : Type} (m : List (String × α)) (k : String) (v : α) :
    ainsert (ainsert m k v) k v = ainsert m k v := by
  induction m with
  | nil => simp [ainsert]
  | cons hd tl ih =>
    obtain ⟨k', v'⟩ := hd
    by_cases h : k' = k <;> simp [ainsert, h, ih]

theorem firstFit_none_of_small (l : List IPNet) (req : Int)
    (h : ∀ blk ∈ l, req < (maskOnes blk.mask : Int)) : firstFit l req = none := by
  induction l with
  | nil => rfl
  | cons blk rest ih =>
    have hb := h blk (List.mem_cons_self blk rest)
    have : ¬ ((maskOnes blk.mask : Int) ≤ req) := by omega
    simp only [firstFit, if_neg this, ih (fun b hbm => h b (List.mem_cons_of_mem _ hbm))]
    rfl

theorem firstFit_le (l : List IPNet) (req : Int) (i : Nat) (b : IPNet)
    (h : firstFit l req = some (i, b)) : (maskOnes b.mask : Int) ≤ req := by
  induction l generalizing i with
  | nil => simp [firstFit] at h
  | cons blk rest ih =>
    by_cases hb : (maskOnes blk.mask : Int) ≤ req
    · simp only [firstFit, if_pos hb, Option.some.injEq, Prod.mk.injEq] at h
      exact h.2 ▸ hb
    · simp only [firstFit, if_neg hb, Option.map_eq_some'] at h
      obtain ⟨⟨j, c⟩, hjc, heq⟩ := h
      cases heq
      exact ih j hjc

theorem cidrMask_coe (n : Nat) (h : n ≤ 32) : cidrMask (n : Int) = some n := by
  simp [cidrMask, h]

theorem cidrMask_oversized (k : Int) (h : 32 < k) : cidrMask k = none := by
  have : ¬ (0 ≤ k ∧ k ≤ 32) := by omega
  simp [cidrMask, this]

theorem oneShl32Sub_coe (n : Nat) (h : n ≤ 32) : oneShl32Sub (n : Int) = 2 ^ (32 - n) := by
  have h1 : (n : Int) ≤ 32 := by omega
  have h2 : ((32 : Int) - n).toNat = 32 - n := by omega
  simp [oneShl32Sub, h1, h2]

theorem oneShl32Sub_oversized (k : Int) (h : 32 < k) : oneShl32Sub k = 0 := by
  have : ¬ (k ≤ 32) := by omega
  simp [oneShl32Sub, this]

theorem incIP_small (ip inc : Nat) (h : ip + inc < 2 ^ 32) : incIP ip inc = ip + inc :=
  Nat.mod_eq_of_lt h

theorem ipnetContains_canonical (v4 : Bool) (base p x : Nat)
    (hcanon : base % 2 ^ (32 - p) = 0) :
    ipnetContains ⟨v4, base, some p⟩ x = inBlock ⟨v4, base, some p⟩ x := by
  have hs : 0 < 2 ^ (32 - p) := Nat.pos_pow_of_pos _ (by omega)
  rw [Bool.eq_iff_iff]
  simp only [ipnetContains, inBlock, blockSpan, maskOnes, beq_iff_eq, decide_eq_true_eq]
  constructor
  · intro hdiv
    have h1 : base / 2 ^ (32 - p) * 2 ^ (32 - p) = base :=
      Nat.div_mul_cancel (Nat.dvd_of_mod_eq_zero hcanon)
    have h2 := Nat.div_add_mod x (2 ^ (32 - p))
    have h3 := Nat.mod_lt x hs
    have h4 : 2 ^ (32 - p) * (x / 2 ^ (32 - p)) = base := by
      rw [← hdiv, Nat.mul_comm]; exact h1
    have h5 : base + x % 2 ^ (32 - p) = x := by rw [← h4]; exact h2
    refine ⟨by omega, ?_⟩
    rw [← h5]
    exact Nat.add_lt_add_left h3 base
  · rintro ⟨hle, hlt⟩
    obtain ⟨q, hq⟩ := Nat.dvd_of_mod_eq_zero hcanon
    obtain ⟨d, hd⟩ := Nat.le.dest hle
    have hdlt : d < 2 ^ (32 - p) := by omega
    have hx : x = 2 ^ (32 - p) * q + d := by omega
    rw [hq, hx, Nat.mul_div_cancel_left q hs, Nat.mul_add_div hs, Nat.div_eq_of_lt hdlt]
    omega

theorem remainderLoop_eq_specHighBlocks (base bp : Nat)
    (hcanon : base % 2 ^ (32 - bp) = 0) (hrange : base + 2 ^ (32 - bp) ≤ 2 ^ 32) :
    ∀ (fuel i : Nat), i = bp + 1 + fuel → i ≤ 32 →
    remainderLoop ⟨true, base, some bp⟩ (base + 2 ^ (32 - i)) (i : Int) fuel =
      specHighBlocks base (i - 1) fuel := by
  intro fuel
  induction fuel with
  | zero => intro i hi h32; rfl
  | succ k ih =>
    intro i hi h32
    have hpow : 2 ^ (32 - i) + 2 ^ (32 - i) = 2 ^ (32 - (i - 1)) := by
      have h : 32 - (i - 1) = (32 - i) + 1 := by omega
      rw [h, pow_succ]; ring
    have hsmall : 2 ^ (32 - (i - 1)) < 2 ^ (32 - bp) :=
      Nat.pow_lt_pow_right (by omega) (by omega)
    have hlt : base + 2 ^ (32 - i) + 2 ^ (32 - i) < 2 ^ 32 := by omega
    have hc2 : incIP (base + 2 ^ (32 - i)) (oneShl32Sub (i : Int)) =
        base + 2 ^ (32 - (i - 1)):= by
      rw [oneShl32Sub_coe i h32, incIP, Nat.mod_eq_of_lt hlt, Nat.add_assoc, hpow]
    have hcont : ipnetContains ⟨true, base, some bp⟩ (base + 2 ^ (32 - (i - 1))) = true := by
      rw [ipnetContains_canonical true base bp _ hcanon]
      simp only [inBlock, blockSpan, maskOnes, decide_eq_true_eq]
      exact ⟨Nat.le_add_right _ _, Nat.add_lt_add_left hsmall base⟩
    have hcast : ((i : Int) - 1) = ((i - 1 : Nat) : Int) := by omega
    simp only [remainderLoop, hc2, hcont, if_true, hcast]
    rw [ih (i - 1) (by omega) (by omega)]
    simp only [specHighBlocks]
    rw [cidrMask_coe (i - 1) (by omega)]

theorem specHighBlocks_ip_lb (base : Nat) :
    ∀ (k p : Nat) (n : IPNet), n ∈ specHighBlocks base p k → base + 2 ^ (32 - p) ≤ n.ip := by
  intro k
  induction k with
  | zero => intro p n hn; simp [specHighBlocks] at hn
  | succ m ih =>
    intro p n hn
    simp only [specHighBlocks, List.mem_cons] at hn
    rcases hn with rfl | hn
    · exact Nat.le_refl _
    · have h1 := ih (p - 1) n hn
      have h2 : 2 ^ (32 - p) ≤ 2 ^ (32 - (p - 1)) := Nat.pow_le_pow_right (by omega) (by omega)
      omega

theorem specHighBlocks_any_iff (base : Nat) :
    ∀ (k p : Nat), k ≤ p → p ≤ 32 → ∀ x : Nat,
    ((specHighBlocks base p k).any fun m => inBlock m x) = true ↔
      (base + 2 ^ (32 - p) ≤ x ∧ x < base + 2 ^ (32 - p) * 2 ^ k) := by
  intro k
  induction k with
  | zero =>
    intro p hk h32 x
    simp only [specHighBlocks, List.any_nil, pow_zero, Nat.mul_one]
    constructor
    · intro h; exact Bool.noConfusion h
    · rintro ⟨h1, h2⟩
      exact absurd h2 (Nat.not_lt.mpr h1)
  | succ m ih =>
    intro p hk h32 x
    have hp1 : 1 ≤ p := by omega
    have htail := ih (p - 1) (by omega) (by omega) x
    simp only [specHighBlocks, List.any_cons, Bool.or_eq_true]
    rw [htail]
    simp only [inBlock, blockSpan, maskOnes, decide_eq_true_eq]
    have hE1 : 2 ^ (32 - (p - 1)) = 2 ^ (32 - p) + 2 ^ (32 - p) := by
      have h : 32 - (p - 1) = (32 - p) + 1 := by omega
      rw [h, pow_succ]; ring
    have hEQ : 2 ^ (32 - (p - 1)) * 2 ^ m = 2 ^ (32 - p) * 2 ^ (m + 1) := by
      rw [hE1, pow_succ]; ring
    have hTLE : 2 ^ (32 - (p - 1)) ≤ 2 ^ (32 - (p - 1)) * 2 ^ m :=
      Nat.le_mul_of_pos_right _ (Nat.pos_pow_of_pos m (by omega))
    generalize hg1 : 2 ^ (32 - (p - 1)) * 2 ^ m = TU at *
    generalize hg2 : 2 ^ (32 - p) * 2 ^ (m + 1) = G at *
    generalize hg3 : 2 ^ (32 - (p - 1)) = t at *
    generalize hg4 : 2 ^ (32 - p) = s at *
    omega

theorem specHighBlocks_pairwise (base : Nat) :
    ∀ (k p : Nat), k ≤ p → p ≤ 32 →
    List.Pairwise (fun m n => m.ip + blockSpan m ≤ n.ip) (specHighBlocks base p k) := by
  intro k
  induction k with
  | zero => intro p hk h32; exact List.Pairwise.nil
  | succ m ih =>
    intro p hk h32
    have hE1 : 2 ^ (32 - (p - 1)) = 2 ^ (32 - p) + 2 ^ (32 - p) := by
      have h : 32 - (p - 1) = (32 - p) + 1 := by omega
      rw [h, pow_succ]; ring
    have hmp : m ≤ p - 1 := by omega
    refine List.Pairwise.cons ?_ (ih (p - 1) hmp (by omega))
    intro n hn
    have h1 := specHighBlocks_ip_lb base m (p - 1) n hn
    simp only [blockSpan, maskOnes]
    omega

theorem disjoint_of_le (m n : IPNet) (h : m.ip + blockSpan m ≤ n.ip) :
    ∀ x : Nat, ¬(inBlock m x = true ∧ inBlock n x = true) := by
  rintro x ⟨h1, h2⟩
  simp only [inBlock, decide_eq_true_eq] at h1 h2
  omega

theorem allocateSplit_eq
    (pool : SliceIPPool) (c : String) (r base bp idx : Nat)
    (hnot : alookup pool.allocated c = none)
    (hfit : firstFit pool.freeBlocks (r : Int) = some (idx, ⟨true, base, some bp⟩))
    (hlt : bp < r) (hr : r ≤ 32)
    (hcanon : base % 2 ^ (32 - bp) = 0)
    (hrange : base + 2 ^ (32 - bp) ≤ 2 ^ 32) :
    allocateSubnetForPool pool c (r : Int) =
      .ok (⟨true, base, some r⟩,
        { pool with
          freeBlocks := pool.freeBlocks.take idx ++ specRemainders base r bp ++
            pool.freeBlocks.drop (idx + 1)
          allocated := ainsert pool.allocated c ⟨true, base, some r⟩ }) := by
  have hclt : ((bp : Nat) : Int) < ((r : Nat) : Int) := by exact_mod_cast hlt
  have hspow : 2 ^ (32 - r) < 2 ^ (32 - bp) := Nat.pow_lt_pow_right (by omega) (by omega)
  have hnext : incIP base (oneShl32Sub (r : Int)) = base + 2 ^ (32 - r) := by
    rw [oneShl32Sub_coe r hr, incIP_small]
    omega
  have hcont : ipnetContains ⟨true, base, some bp⟩ (base + 2 ^ (32 - r)) = true := by
    rw [ipnetContains_canonical true base bp _ hcanon]
    simp only [inBlock, blockSpan, maskOnes, decide_eq_true_eq]
    exact ⟨Nat.le_add_right _ _, by omega⟩
  have hfuel : (((r : Nat) : Int) - (((bp : Nat) : Int) + 1)).toNat = r - bp - 1 := by omega
  have hloop := remainderLoop_eq_specHighBlocks base bp hcanon hrange (r - bp - 1) r
    (by omega) hr
  have hsub : r - 1 - bp = r - bp - 1 := by omega
  simp only [allocateSubnetForPool, hnot, hfit, maskOnes]
  simp only [if_pos hclt, hnext, hcont, if_true, cidrMask_coe r hr, hfuel, hloop,
    specRemainders, hsub, List.singleton_append]

theorem splitCover (r base bp : Nat) (hlt : bp < r) (hr : r ≤ 32) :
    ∀ x : Nat, inBlock ⟨true, base, some bp⟩ x =
      (inBlock ⟨true, base, some r⟩ x ||
        (specRemainders base r bp).any fun m => inBlock m x) := by
  intro x
  have hany := specHighBlocks_any_iff base (r - 1 - bp) (r - 1) (by omega) (by omega) x
  have hE : 2 ^ (32 - (r - 1)) = 2 ^ (32 - r) + 2 ^ (32 - r) := by
    have h : 32 - (r - 1) = (32 - r) + 1 := by omega
    rw [h, pow_succ]; ring
  have hEnd : 2 ^ (32 - (r - 1)) * 2 ^ (r - 1 - bp) = 2 ^ (32 - bp) := by
    rw [← pow_add]; congr 1; omega
  have h2s : 2 ^ (32 - r) + 2 ^ (32 - r) ≤ 2 ^ (32 - bp) := by
    rw [← hE, ← hEnd]
    exact Nat.le_mul_of_pos_right _ (Nat.pos_pow_of_pos _ (by omega))
  rw [Bool.eq_iff_iff]
  simp only [specRemainders, List.any_cons, Bool.or_eq_true]
  rw [hany]
  simp only [inBlock, blockSpan, maskOnes, decide_eq_true_eq]
  rw [hEnd, hE]
  generalize 2 ^ (32 - r) = s at *
  generalize 2 ^ (32 - bp) = sb at *
  omega

theorem splitDisjoint (r base bp : Nat) (hlt : bp < r) (hr : r ≤ 32) :
    List.Pairwise (fun m n => ∀ x : Nat, ¬(inBlock m x = true ∧ inBlock n x = true))
      (⟨true, base, some r⟩ :: specRemainders base r bp) := by
  have hE : 2 ^ (32 - (r - 1)) = 2 ^ (32 - r) + 2 ^ (32 - r) := by
    have h : 32 - (r - 1) = (32 - r) + 1 := by omega
    rw [h, pow_succ]; ring
  have hsle : 2 ^ (32 - r) ≤ 2 ^ (32 - (r - 1)) := Nat.pow_le_pow_right (by omega) (by omega)
  refine List.Pairwise.cons ?_ (List.Pairwise.cons ?_ ?_)
  · intro n hn
    simp only [specRemainders, List.mem_cons] at hn
    rcases hn with rfl | hn
    · exact disjoint_of_le _ _ (by simp only [blockSpan, maskOnes]; omega)
    · have hlb := specHighBlocks_ip_lb base (r - 1 - bp) (r - 1) n hn
      exact disjoint_of_le _ _ (by simp only [blockSpan, maskOnes]; omega)
  · intro n hn
    have hlb := specHighBlocks_ip_lb base (r - 1 - bp) (r - 1) n hn
    exact disjoint_of_le _ _ (by simp only [blockSpan, maskOnes]; omega)
  · exact (specHighBlocks_pairwise base (r - 1 - bp) (r - 1) (by omega) (by omega)).imp
      (fun h => disjoint_of_le _ _ h)

/-- Claim C6 (amended): for every successful Allocate of prefix `r` from a strictly
larger first-fit free block `B` that is canonical and has `r ≤ 32` (all states the
spec's invariants allow), the allocated CIDR is `(B.ip, r)` and `B` is replaced in
order by the spec's remainder sequence — one block of prefix `r` immediately after
the allocated block, then one block of prefix `p` at `B.ip + 2^(32-p)` for `p` from
`r-1` down to `prefix(B)+1`, every one of them inside `B` — and these remainders
together with the allocated block cover `B` exactly and pairwise disjointly.
The unamended claim fails when `B` is non-canonical (see the C6 counterexample). -/
theorem splitCanonicalCharacterization
    (pool : SliceIPPool) (c : String) (r base bp idx : Nat)
    (hnot : alookup pool.allocated c = none)
    (hfit : firstFit pool.freeBlocks (r : Int) = some (idx, ⟨true, base, some bp⟩))
    (hlt : bp < r) (hr : r ≤ 32)
    (hcanon : base % 2 ^ (32 - bp) = 0)
    (hrange : base + 2 ^ (32 - bp) ≤ 2 ^ 32) :
    allocateSubnetForPool pool c (r : Int) =
      .ok (⟨true, base, some r⟩,
        { pool with
          freeBlocks := pool.freeBlocks.take idx ++ specRemainders base r bp ++
            pool.freeBlocks.drop (idx + 1)
          allocated := ainsert pool.allocated c ⟨true, base, some r⟩ }) ∧
    (∀ x : Nat, inBlock ⟨true, base, some bp⟩ x =
      (inBlock ⟨true, base, some r⟩ x ||
        (specRemainders base r bp).any fun m => inBlock m x)) ∧
    List.Pairwise (fun m n => ∀ x : Nat, ¬(inBlock m x = true ∧ inBlock n x = true))
      (⟨true, base, some r⟩ :: specRemainders base r bp) :=
  ⟨allocateSplit_eq pool c r base bp idx hnot hfit hlt hr hcanon hrange,
   splitCover r base bp hlt hr,
   splitDisjoint r base bp hlt hr⟩

theorem allocateSubnetForPool_post (pool pool2 : SliceIPPool) (c : String) (p : Int)
    (v : IPNet) (hp : p ≤ 32)
    (h : allocateSubnetForPool pool c p = .ok (v, pool2)) :
    alookup pool2.allocated c = some v ∧ (maskOnes v.mask : Int) = p := by
  cases hal : alookup pool.allocated c with
  | some existing =>
    simp only [allocateSubnetForPool, hal] at h
    by_cases he : (maskOnes existing.mask : Int) = p
    · rw [if_pos he] at h
      simp only [GoResult.ok.injEq, Prod.mk.injEq] at h
      obtain ⟨rfl, rfl⟩ := h
      exact ⟨hal, he⟩
    · rw [if_neg he] at h
      cases h
  | none =>
    simp only [allocateSubnetForPool, hal] at h
    cases hff : firstFit pool.freeBlocks p with
    | none => simp only [hff] at h; cases h
    | some pr =>
      obtain ⟨idx, ffn⟩ := pr
      simp only [hff] at h
      have hle : (maskOnes ffn.mask : Int) ≤ p := firstFit_le _ _ _ _ hff
      by_cases hsplit : ((maskOnes ffn.mask : Nat) : Int) < p
      · rw [if_pos hsplit] at h
        have h0p : 0 ≤ p := le_trans (Int.ofNat_nonneg _) (le_of_lt hsplit)
        have hmask : cidrMask p = some p.toNat := by
          simp [cidrMask, h0p, hp]
        simp only [GoResult.ok.injEq, Prod.mk.injEq] at h
        obtain ⟨⟨rfl, rfl⟩, rfl⟩ := h
        refine ⟨alookup_ainsert_self _ _ _, ?_⟩
        simp only [hmask, maskOnes]
        omega
      · rw [if_neg hsplit] at h
        have heq : ((maskOnes ffn.mask : Nat) : Int) = p := by omega
        simp only [GoResult.ok.injEq, Prod.mk.injEq] at h
        obtain ⟨⟨rfl, rfl⟩, rfl⟩ := h
        exact ⟨alookup_ainsert_self _ _ _, heq⟩

/-- Claim C8: if `Allocate(s, c, p)` succeeds (for a prefix length `p ≤ 32`, the
range the spec's data model gives prefix lengths), an immediately following
`Allocate(s, c, p)` succeeds, returns the same CIDR value (hence the same CIDR
string), and leaves the registry — in particular `free_blocks` and the rest of the
pool state — unchanged. -/
theorem allocateIdempotent (a a' : Allocator) (ctx : GoContext) (s c : String) (p : Int)
    (v : IPNet) (hp : p ≤ 32)
    (h : allocate a ctx s c p = (a', .ok v)) :
    allocate a' ctx s c p = (a', .ok v) := by
  cases hpl : alookup a.pools s with
  | none =>
    simp only [allocate, hpl, Prod.mk.injEq] at h
    obtain ⟨-, h2⟩ := h
    cases h2
  | some pool =>
    simp only [allocate, hpl] at h
    cases hap : allocateSubnetForPool pool c p with
    | err e =>
      simp only [hap, Prod.mk.injEq] at h
      obtain ⟨-, h2⟩ := h
      cases h2
    | ok pr =>
      obtain ⟨net, pool2⟩ := pr
      simp only [hap, Prod.mk.injEq, GoResult.ok.injEq] at h
      obtain ⟨rfl, rfl⟩ := h
      have hpost := allocateSubnetForPool_post pool pool2 c p net hp hap
      have hl2 : alookup (ainsert a.pools s pool2) s = some pool2 :=
        alookup_ainsert_self _ _ _
      have hsecond : allocateSubnetForPool pool2 c p = .ok (net, pool2) := by
        simp only [allocateSubnetForPool, hpost.1, if_pos hpost.2]
      simp only [allocate, hl2, hsecond]
      rw [ainsert_ainsert_self]

/-- Claim C10: on an initialized pool whose free list starts with a well-formed
block `B` and for a fresh cluster name, Allocate with `required_prefix_length > 32`
is not rejected: it returns success, records `(B.ip, nil-mask)` under the cluster,
and inserts as the first remainder a free block with the same network address
`B.ip`, so `allocated` and `free_blocks` hold overlapping entries. -/
theorem oversizedAllocateOverlaps (a : Allocator) (ctx : GoContext) (s c : String)
    (req : Int) (pool : SliceIPPool) (B : IPNet) (rest : List IPNet) (b : Nat)
    (hpool : alookup a.pools s = some pool)
    (hfree : pool.freeBlocks = B :: rest)
    (hmask : B.mask = some b) (hb : b ≤ 32) (hip : B.ip < 2 ^ 32)
    (hc : alookup pool.allocated c = none) (hreq : 32 < req) :
    ∃ pool2 : SliceIPPool,
      allocate a ctx s c req = (⟨ainsert a.pools s pool2⟩, .ok ⟨B.isV4, B.ip, none⟩) ∧
      pool2.freeBlocks.head? = some ⟨B.isV4, B.ip, none⟩ ∧
      alookup pool2.allocated c = some ⟨B.isV4, B.ip, none⟩ := by
  have hble : (maskOnes B.mask : Int) ≤ req := by rw [hmask]; simp only [maskOnes]; omega
  have hblt : ((maskOnes B.mask : Nat) : Int) < req := by rw [hmask]; simp only [maskOnes]; omega
  have hffit : firstFit (B :: rest) req = some (0, B) := by
    simp only [firstFit, if_pos hble]
  have hcm := cidrMask_oversized req hreq
  have hsh := oneShl32Sub_oversized req hreq
  have hinc : incIP B.ip 0 = B.ip := by
    simp only [incIP, Nat.add_zero]
    exact Nat.mod_eq_of_lt hip
  have hcont : ipnetContains B B.ip = true := by simp [ipnetContains, hmask]
  refine ⟨{ pool with
      freeBlocks := ⟨B.isV4, B.ip, none⟩ ::
        (remainderLoop B B.ip req ((req - ((maskOnes B.mask : Int) + 1)).toNat) ++
          rest)
      allocated := ainsert pool.allocated c ⟨B.isV4, B.ip, none⟩ }, ?_, ?_, ?_⟩
  · simp only [allocate, hpool, allocateSubnetForPool, hc, hffit, if_pos hblt, hcm, hsh,
      hinc, hcont, if_true, hfree, List.take_zero, List.drop_succ_cons, List.drop_zero,
      List.nil_append, List.singleton_append, List.cons_append]
  · rfl
  · exact alookup_ainsert_self _ _ _

theorem vpnReservationFails (sliceNet : IPNet) (p : Nat) (hm : sliceNet.mask = some p)
    (hp : 25 ≤ p) :
    allocateSubnetForPool ⟨sliceNet, [], [sliceNet]⟩ "VPN_Subnet" 24 =
      .err "no available subnet of size in pool" := by
  have hff : firstFit [sliceNet] (24 : Int) = none := by
    simp only [firstFit, hm, maskOnes]
    rw [if_neg (by omega)]
    rfl
  simp only [allocateSubnetForPool, alookup, hff]

/-- Claim C9 (amended): when the slice subnet is too small for the /24 VPN
reservation (prefix in [25, 32]), the first `InitializePool` returns an error but
leaves the pool registered with an empty `allocated` map, and a second
`InitializePool` for the same slice name takes the idempotent path and returns
success — so a successful return without a VPN reservation is observable,
contrary to the unamended claim (see the C9 counterexample). -/
theorem vpnFailureThenIdempotentSuccess (a : Allocator) (s : String) (ip p : Nat)
    (hfresh : alookup a.pools s = none) (hp : 25 ≤ p) (hp32 : p ≤ 32) :
    (initializePool a s ip p).2 = .err "failed to reserve VPN subnet for slice" ∧
    (poolOf (initializePool a s ip p).1 s).allocated = [] ∧
    initializePool (initializePool a s ip p).1 s ip p =
      ((initializePool a s ip p).1, .ok ()) := by
  have hvpn := vpnReservationFails ⟨true, ip / 2 ^ (32 - p) * 2 ^ (32 - p), some p⟩ p rfl hp
  have h32 : ¬ (32 < p) := by omega
  have h1 : initializePool a s ip p =
      (⟨ainsert a.pools s ⟨⟨true, ip / 2 ^ (32 - p) * 2 ^ (32 - p), some p⟩, [],
        [⟨true, ip / 2 ^ (32 - p) * 2 ^ (32 - p), some p⟩]⟩⟩,
       .err "failed to reserve VPN subnet for slice") := by
    simp only [initializePool, hfresh, if_neg h32, hvpn]
  rw [h1]
  refine ⟨rfl, ?_, ?_⟩
  · simp only [poolOf, alookup_ainsert_self]
    rfl
  · simp only [initializePool, alookup_ainsert_self]

/-- Claim C5 (amended): there is no `InvalidPrefix` validation.  A request below
every free block's prefix length (in particular below `prefix(slice_subnet)` in
states satisfying the spec's invariants) fails with the `NoFreeBlock` error
("no available subnet ...") and mutates nothing, while a request above 32 is not
rejected at all (see the C5 counterexample and claim C10). -/
theorem smallPrefixFailsNoFreeBlock (a : Allocator) (ctx : GoContext) (s c : String)
    (req : Int) (pool : SliceIPPool)
    (hpool : alookup a.pools s = some pool)
    (hc : alookup pool.allocated c = none)
    (hreq : ∀ blk ∈ pool.freeBlocks, req < (maskOnes blk.mask : Int)) :
    allocate a ctx s c req = (a, .err "no available subnet of size in pool") := by
  have hff := firstFit_none_of_small pool.freeBlocks req hreq
  simp only [allocate, hpool, allocateSubnetForPool, hc, hff]

/-- Claim C4 (amended): `Allocate` and `Reclaim` never consult the context they
receive: their behaviour is identical for any two contexts, so a cancelled
context neither produces a cancellation error nor prevents mutation
(see the C4 counterexample). -/
theorem contextIgnoredByOps (a : Allocator) (ctx ctx' : GoContext) (s c : String)
    (req : Int) :
    allocate a ctx s c req = allocate a ctx' s c req ∧
    reclaim a ctx s c = reclaim a ctx' s c :=
  ⟨rfl, rfl⟩

/-- Claim C7 (amended): `tryMerge(a, b)` succeeds exactly when both blocks are
IPv4, both have the same prefix length `p ≥ 1`, and `b`'s address equals
`a`'s address plus `2^(32-p)` computed modulo `2^32`; the returned block has
prefix length `p - 1` and its network address is exactly `a`'s address — the
source does not mask it, contrary to the unamended claim
(see the C7 counterexample). -/
theorem tryMergeCharacterization (a b : IPNet) (ha : maskOnes a.mask ≤ 32) :
    tryMerge a b =
      if a.isV4 = true ∧ b.isV4 = true ∧ maskOnes a.mask = maskOnes b.mask ∧
          1 ≤ maskOnes a.mask ∧
          b.ip = (a.ip + 2 ^ (32 - maskOnes a.mask)) % 2 ^ 32 then
        some ⟨a.isV4, a.ip, some (maskOnes a.mask - 1)⟩
      else none := by
  cases hA : a.isV4 with
  | false => simp [tryMerge, hA]
  | true =>
    cases hB : b.isV4 with
    | false => simp [tryMerge, hA, hB]
    | true =>
      by_cases hpq : maskOnes a.mask = maskOnes b.mask
      · rw [hpq] at ha
        by_cases hp1 : 1 ≤ maskOnes b.mask
        · have hm0 : ¬ ((maskOnes b.mask : Int) - 1 < 0) := by omega
          have hcast : ((maskOnes b.mask : Int) - 1) =
              ((maskOnes b.mask - 1 : Nat) : Int) := by omega
          have hcm : cidrMask ((maskOnes b.mask : Int) - 1) =
              some (maskOnes b.mask - 1) := by
            rw [hcast, cidrMask_coe _ (by omega)]
          by_cases hE : b.ip = (a.ip + 2 ^ (32 - maskOnes b.mask)) % 4294967296
          · simp [tryMerge, hA, hB, hpq, hm0, hcm, hp1, hE, incIP, oneShl32Sub_coe _ ha]
          · have hE2 : ¬ ((a.ip + 2 ^ (32 - maskOnes b.mask)) % 4294967296 = b.ip) :=
              fun h => hE h.symm
            simp [tryMerge, hA, hB, hpq, hm0, hcm, hp1, hE, hE2, incIP,
              oneShl32Sub_coe _ ha]
        · have hq0 : maskOnes b.mask = 0 := by omega
          simp [tryMerge, hA, hB, hpq, hq0]
      · simp [tryMerge, hA, hB, hpq]

/-- Claim C1 (violated by the code, evaluated at the failing input): after the
valid, everywhere-successful sequence `InitializePool("s", 10.0.0.0/22)`,
`Allocate c1 /24`, `Allocate c2 /25`, `Allocate c3 /25`, `Allocate c4 /24`,
`Reclaim c1`, `Reclaim c3`, `Reclaim c2`, `Reclaim c4`, `Allocate c5 /24`, the
address 10.0.2.0 lies in the slice subnet but in no block of `allocated` and in
no block of `free_blocks`: the blocks do not cover `slice_subnet`, so
`allocated ∪ free_blocks` is not a partition of it. -/
theorem partitionInvariantViolated :
    ((initializePool regA0 "s" ipBase 22).2 = .ok () ∧
     (allocate regA1 ctxLive "s" "c1" 24).2 = .ok ⟨true, ipBase + 256, some 24⟩ ∧
     (allocate regA2 ctxLive "s" "c2" 25).2 = .ok ⟨true, ipBase + 512, some 25⟩ ∧
     (allocate regA3 ctxLive "s" "c3" 25).2 = .ok ⟨true, ipBase + 640, some 25⟩ ∧
     (allocate regA4 ctxLive "s" "c4" 24).2 = .ok ⟨true, ipBase + 768, some 24⟩ ∧
     (reclaim regA5 ctxLive "s" "c1").2 = .ok () ∧
     (reclaim regA6 ctxLive "s" "c3").2 = .ok () ∧
     (reclaim regA7 ctxLive "s" "c2").2 = .ok () ∧
     (reclaim regA8 ctxLive "s" "c4").2 = .ok () ∧
     (allocate regA9 ctxLive "s" "c5" 24).2 = .ok ⟨true, ipBase + 256, some 24⟩) ∧
    inBlock (poolOf regA10 "s").sliceSubnet (ipBase + 512) = true ∧
    ((poolOf regA10 "s").allocated.all fun kv => !inBlock kv.2 (ipBase + 512)) = true ∧
    ((poolOf regA10 "s").freeBlocks.all fun m => !inBlock m (ipBase + 512)) = true := by
  decide

/-- Claim C2 (violated by the code, evaluated at the failing input): on the same
valid trace as C1, after `Reclaim c2` the free list is exactly
`[10.0.1.0/24, 10.0.2.0/24]` — two adjacent same-size free blocks that are not
the two halves of an aligned parent (10.0.1.0 is not /23-aligned), which the
claim says never arise — and the next `Reclaim c4` merges that unaligned pair,
leaving the non-canonical free block 10.0.1.0/23 whose low 9 bits are not
zero. -/
theorem canonicalInvariantViolated :
    ((reclaim regA7 ctxLive "s" "c2").2 = .ok () ∧
     (poolOf regA8 "s").freeBlocks =
       [⟨true, ipBase + 256, some 24⟩, ⟨true, ipBase + 512, some 24⟩] ∧
     ipBase + 512 = (ipBase + 256) + 2 ^ (32 - 24) ∧
     (ipBase + 256) % 2 ^ (32 - 23) ≠ 0) ∧
    ((reclaim regA8 ctxLive "s" "c4").2 = .ok () ∧
     ⟨true, ipBase + 256, some 23⟩ ∈ (poolOf regA9 "s").freeBlocks ∧
     canonicalBlock ⟨true, ipBase + 256, some 23⟩ = false) := by
  decide

/-- Claim C3 (violated by the code, evaluated at the failing input): on the same
valid trace as C1, the successful `Reclaim c2` exits with
`free_blocks = [10.0.1.0/24, 10.0.2.0/24]` — a pair of blocks with equal prefix
length 24 ≥ 1 whose second address equals the first plus `2^(32-24)`: the single
left-to-right sweep merged the two /25 halves into 10.0.2.0/24 only after it had
already emitted 10.0.1.0/24, so the free list is not fully coalesced on exit. -/
theorem reclaimLeavesUncoalescedPair :
    (reclaim regA7 ctxLive "s" "c2").2 = .ok () ∧
    (poolOf regA8 "s").freeBlocks =
      [⟨true, ipBase + 256, some 24⟩, ⟨true, ipBase + 512, some 24⟩] ∧
    (1 ≤ 24 ∧ ipBase + 512 = (ipBase + 256) + 2 ^ (32 - 24)) := by
  decide

/-- Claim C4 (counterexample): a call whose context is already cancelled at entry
does not return a cancellation error and does not leave the state unchanged —
`Allocate` succeeds and changes the registry, and so does `Reclaim`, because the
source never reads the context. -/
theorem cancelledContextStillMutates :
    ctxCancelled.cancelled = true ∧
    (allocate regA1 ctxCancelled "s" "c1" 24).2 = .ok ⟨true, ipBase + 256, some 24⟩ ∧
    (allocate regA1 ctxCancelled "s" "c1" 24).1 ≠ regA1 ∧
    (reclaim regA5 ctxCancelled "s" "c1").2 = .ok () ∧
    (reclaim regA5 ctxCancelled "s" "c1").1 ≠ regA5 := by
  decide

/-- Claim C5 (counterexample): on the freshly initialized 10.0.0.0/22 pool, an
Allocate for a fresh cluster with `required_prefix_length = 33` — outside
`[prefix(slice_subnet), 32] = [22, 32]` — does not fail with any validation
error: it returns success (with a nil-mask CIDR), so no `InvalidPrefix` check
exists. -/
theorem oversizedPrefixNotRejected :
    (poolOf regA1 "s").sliceSubnet.mask = some 22 ∧
    (allocate regA1 ctxLive "s" "cBad" 33).2 = .ok ⟨true, ipBase + 256, none⟩ := by
  decide

/-- Claim C5 (witness for the amended theorem): requesting /10 from the /22 pool
fails with the NoFreeBlock error and leaves the registry unchanged. -/
theorem smallPrefixFailsNoFreeBlockWitness :
    allocate regA1 ctxLive "s" "cSmall" 10 =
      (regA1, .err "no available subnet of size in pool") :=
  smallPrefixFailsNoFreeBlock regA1 ctxLive "s" "cSmall" 10 (poolOf regA1 "s")
    (by decide) (by decide) (by decide)

/-- Claim C6 (counterexample): in the reachable state `regA9` the free list's
first fit for /24 is the non-canonical block 10.0.1.0/23 (strictly larger,
prefix 23 < 24); the Allocate succeeds, but the address 10.0.2.0 lies in that
block while lying neither in the allocated CIDR nor in any block of the
resulting free list (which contains every inserted remainder) — the remainders
together with the allocated block do not cover the split block. -/
theorem splitOfNonCanonicalLosesAddresses :
    firstFit (poolOf regA9 "s").freeBlocks 24 =
      some (0, ⟨true, ipBase + 256, some 23⟩) ∧
    maskOnes (some 23) < 24 ∧
    (allocate regA9 ctxLive "s" "c5" 24).2 = .ok ⟨true, ipBase + 256, some 24⟩ ∧
    inBlock ⟨true, ipBase + 256, some 23⟩ (ipBase + 512) = true ∧
    inBlock ⟨true, ipBase + 256, some 24⟩ (ipBase + 512) = false ∧
    ((poolOf regA10 "s").freeBlocks.all fun m => !inBlock m (ipBase + 512)) = true := by
  decide

/-- Claim C6 (witness for the amended theorem): splitting the canonical /24 block
10.0.1.0/24 of the fresh /22 pool by a /25 request yields exactly the allocated
block 10.0.1.0/25 and the spec's remainder sequence in place of the block. -/
theorem splitCanonicalCharacterizationWitness :
    allocateSubnetForPool (poolOf regA1 "s") "cW" ((25 : Nat) : Int) =
      .ok (⟨true, ipBase + 256, some 25⟩,
        { poolOf regA1 "s" with
          freeBlocks := (poolOf regA1 "s").freeBlocks.take 0 ++
            specRemainders (ipBase + 256) 25 24 ++ (poolOf regA1 "s").freeBlocks.drop 1
          allocated := ainsert (poolOf regA1 "s").allocated "cW"
            ⟨true, ipBase + 256, some 25⟩ }) :=
  (splitCanonicalCharacterization (poolOf regA1 "s") "cW" 25 (ipBase + 256) 24 0
    (by decide) (by decide) (by decide) (by decide) (by decide) (by decide)).1

/-- Claim C7 (counterexample, the Go test suite's own fixture): merging
192.168.1.0/24 with 192.168.2.0/24 succeeds, but the returned /23 keeps the
network address 192.168.1.0 — it is not masked to the 23-bit boundary
192.168.0.0 as the claim states. -/
theorem tryMergeResultNotMasked :
    tryMerge ⟨true, 3232235776, some 24⟩ ⟨true, 3232236032, some 24⟩ =
      some ⟨true, 3232235776, some 23⟩ ∧
    3232235776 / 2 ^ (32 - 23) * 2 ^ (32 - 23) = 3232235520 ∧
    (3232235776 : Nat) ≠ 3232235520 := by
  decide

/-- Claim C7 (witness for the amended theorem): the sibling pair
192.168.1.0/25, 192.168.1.128/25 merges to 192.168.1.0/24. -/
theorem tryMergeCharacterizationWitness :
    tryMerge ⟨true, 3232235776, some 25⟩ ⟨true, 3232235904, some 25⟩ =
      some ⟨true, 3232235776, some 24⟩ := by
  have h := tryMergeCharacterization ⟨true, 3232235776, some 25⟩
    ⟨true, 3232235904, some 25⟩ (by decide)
  rw [h]
  decide

/-- Claim C8 (witness): re-allocating /24 for cluster c1 right after its first
successful /24 allocation returns the same CIDR and the unchanged registry. -/
theorem allocateIdempotentWitness :
    allocate regA2 ctxLive "s" "c1" 24 = (regA2, .ok ⟨true, ipBase + 256, some 24⟩) :=
  allocateIdempotent regA1 regA2 ctxLive "s" "c1" 24 ⟨true, ipBase + 256, some 24⟩
    (by decide) (by decide)

/-- Claim C9 (counterexample): `InitializePool("t", 10.0.0.0/28)` fails the VPN
reservation (a /28 cannot hold a /24) yet registers the pool; the second
`InitializePool("t", 10.0.0.0/28)` returns success without modifying anything,
although the pool's `allocated` map is empty — no VPN reservation exists.  A
sequence of InitializePool calls can therefore observe a successful return for
a slice whose pool lacks the "VPN_Subnet" reservation. -/
theorem reinitializeSucceedsWithoutVpn :
    (initializePool regA0 "t" ipBase 28).2 =
      .err "failed to reserve VPN subnet for slice" ∧
    (initializePool (initializePool regA0 "t" ipBase 28).1 "t" ipBase 28).2 = .ok () ∧
    (poolOf (initializePool regA0 "t" ipBase 28).1 "t").allocated = [] ∧
    (initializePool (initializePool regA0 "t" ipBase 28).1 "t" ipBase 28).1 =
      (initializePool regA0 "t" ipBase 28).1 := by
  decide

/-- Claim C9 (witness for the amended theorem): instantiated at the empty
registry with slice "u" and subnet 10.0.0.0/28. -/
theorem vpnFailureThenIdempotentSuccessWitness :
    (initializePool regA0 "u" ipBase 28).2 =
      .err "failed to reserve VPN subnet for slice" ∧
    (poolOf (initializePool regA0 "u" ipBase 28).1 "u").allocated = [] ∧
    initializePool (initializePool regA0 "u" ipBase 28).1 "u" ipBase 28 =
      ((initializePool regA0 "u" ipBase 28).1, .ok ()) :=
  vpnFailureThenIdempotentSuccess regA0 "u" ipBase 28 (by decide) (by decide) (by decide)

/-- Claim C10 (witness): allocating /33 on the fresh 10.0.0.0/22 pool succeeds
and the first block inserted into the free list carries the same network
address 10.0.1.0 as the entry recorded in `allocated`. -/
theorem oversizedAllocateOverlapsWitness :
    ∃ pool2 : SliceIPPool,
      allocate regA1 ctxLive "s" "cX" 33 =
        (⟨ainsert regA1.pools "s" pool2⟩, .ok ⟨true, ipBase + 256, none⟩) ∧
      pool2.freeBlocks.head? = some ⟨true, ipBase + 256, none⟩ ∧
      alookup pool2.allocated "cX" = some ⟨true, ipBase + 256, none⟩ :=
  oversizedAllocateOverlaps regA1 ctxLive "s" "cX" 33 (poolOf regA1 "s")
    ⟨true, ipBase + 256, some 24⟩ [⟨true, ipBase + 512, some 23⟩] 24
    (by decide) (by decide) (by decide) (by decide) (by decide) (by decide) (by decide)
